import Mathlib

/-!
Shallow embedding of the pprof serialization core of
`cloud-profiler-nodejs` (`src/bindings/serialize.cc`, `proto.cc`,
`serialize.h`), together with proofs of the specified properties.

Buffers (`std::vector<char>`) are modelled as `List Nat`, each entry the
unsigned 8-bit value of the pushed `char` (the C++ `(char)` cast is
modelled by `% 256`).  `uint64_t` values are modelled as `Nat`, `int64_t`
values as `Int`; the C++ conversions between the two are made explicit
via `u64ofI64` / `i64ofU64`.  Arithmetic that cannot overflow for any
input reachable in this program (list sizes, hit counts) is kept exact.
-/

/-- The C++ conversion `int64_t -> uint64_t` (reduction modulo 2^64). -/
def u64ofI64 (x : Int) : Nat := (x % (18446744073709551616 : Int)).toNat

/-- The C++ conversion `uint64_t -> int64_t` (two's-complement reinterpretation). -/
def i64ofU64 (x : Nat) : Int :=
  if x < 9223372036854775808 then (x : Int) else (x : Int) - 18446744073709551616

/-- `encodeVarint` from `serialize.cc` lines 22-30 (identical copy in
`proto.cc` lines 19-27): while `x >= 128`, push `(char)((x & 0xFF) | 0x80)`
and shift `x` right by 7; finally push `(char)x`.  The `(char)` cast
truncates to 8 bits, modelled by `% 256`. -/
def encodeVarint (b : List Nat) (x : Nat) : List Nat :=
  if 128 ≤ x then
    encodeVarint (b ++ [((x % 256) ||| 128) % 256]) (x / 128)
  else
    b ++ [x % 256]
termination_by x
decreasing_by exact Nat.div_lt_self (by omega) (by omega)

/-- `encodeLength` (serialize.cc lines 32-35). -/
def encodeLength (b : List Nat) (tag : Nat) (len : Nat) : List Nat :=
  encodeVarint (encodeVarint b ((tag <<< 3) ||| 2)) len

/-- `encodeUint64` (serialize.cc lines 37-40). -/
def encodeUint64 (b : List Nat) (tag : Nat) (x : Nat) : List Nat :=
  encodeVarint (encodeVarint b (tag <<< 3)) x

/-- `encodeUint64s` (serialize.cc lines 42-57): packed encoding when the
sequence has more than 2 elements, individually-tagged fields otherwise. -/
def encodeUint64s (b : List Nat) (tag : Nat) (x : List Nat) : List Nat :=
  if 2 < x.length then
    let b1 := x.foldl (fun b1 u => encodeVarint b1 u) []
    let len := b1.length
    encodeLength b tag len ++ b1
  else
    x.foldl (fun b u => encodeUint64 b tag u) b

/-- `encodeUint64Opt` (serialize.cc lines 59-64). -/
def encodeUint64Opt (b : List Nat) (tag : Nat) (x : Nat) : List Nat :=
  if x = 0 then b else encodeUint64 b tag x

/-- `encodeInt64` (serialize.cc lines 66-68): casts to `uint64_t` and
delegates to `encodeUint64`. -/
def encodeInt64 (b : List Nat) (tag : Nat) (x : Int) : List Nat :=
  encodeUint64 b tag (u64ofI64 x)

/-- `encodeInt64s` (serialize.cc lines 70-85). -/
def encodeInt64s (b : List Nat) (tag : Nat) (x : List Int) : List Nat :=
  if 2 < x.length then
    let b1 := x.foldl (fun b1 u => encodeVarint b1 (u64ofI64 u)) []
    let len := b1.length
    encodeLength b tag len ++ b1
  else
    x.foldl (fun b u => encodeInt64 b tag u) b

/-- `encodeInt64Opt` (serialize.cc lines 87-92). -/
def encodeInt64Opt (b : List Nat) (tag : Nat) (x : Int) : List Nat :=
  if x = 0 then b else encodeInt64 b tag x

/-- The bytes of a `std::string` (UTF-8 byte content). -/
def stringBytes (s : String) : List Nat := s.toUTF8.toList.map (fun c => c.toNat)

/-- `encodeString` (serialize.cc lines 94-97): length-delimited field with
the raw byte content of the string. -/
def encodeString (b : List Nat) (tag : Nat) (x : String) : List Nat :=
  encodeLength b tag (stringBytes x).length ++ stringBytes x

/-- `encodeStrings` (serialize.cc lines 99-103). -/
def encodeStrings (b : List Nat) (tag : Nat) (x : List String) : List Nat :=
  x.foldl (fun b s => encodeString b tag s) b

/-- `encodeBool` (serialize.cc lines 105-107). -/
def encodeBool (b : List Nat) (tag : Nat) (x : Bool) : List Nat :=
  encodeUint64 b tag (if x then 1 else 0)

/-- `encodeBoolOpt` (serialize.cc lines 109-113). -/
def encodeBoolOpt (b : List Nat) (tag : Nat) (x : Bool) : List Nat :=
  if x then encodeUint64 b tag 1 else b

/-- `encodeMessage` (serialize.cc lines 115-121): the virtual
`m->encode(b1)` call is modelled by the caller passing the entity's
encoding into an empty scratch buffer. -/
def encodeMessage (b : List Nat) (tag : Nat) (b1 : List Nat) : List Nat :=
  let len := b1.length
  encodeLength b tag len ++ b1

/-- Standard protobuf base-128 varint decoder, as referenced by the spec's
round-trip property: each byte contributes its low 7 bits, little-endian
group first; a byte below 128 terminates the value. -/
def decodeVarintSpec : List Nat → Nat
  | [] => 0
  | byte :: rest =>
    if 128 ≤ byte then (byte % 128) + 128 * decodeVarintSpec rest
    else byte % 128

/-! ## The profile data model (serialize.h / serialize.cc) -/

/-- `ValueType` (serialize.h lines 40-46). -/
structure ValueType where
  typeX : Int
  unitX : Int
deriving DecidableEq, Repr

/-- `Label` (serialize.h lines 49-59). -/
structure Label where
  keyX : Int
  strX : Int
  num : Int
  unitX : Int
deriving DecidableEq, Repr

/-- `Mapping` (serialize.h lines 63-81). -/
structure Mapping where
  id : Nat
  start : Nat
  limit : Nat
  offset : Nat
  fileX : Nat
  buildIDX : Nat
  hasFunctions : Bool
  hasFilenames : Bool
  hasLineNumbers : Bool
  hasInlineFrames : Bool
deriving DecidableEq, Repr

/-- `Line` (serialize.h lines 84-92). -/
structure Line where
  functionID : Nat
  line : Int
deriving DecidableEq, Repr

/-- `ProfileFunction` (serialize.h lines 95-107). -/
structure ProfileFunction where
  id : Nat
  nameX : Int
  systemNameX : Int
  filenameX : Int
  startLine : Int
deriving DecidableEq, Repr

/-- `ProfileLocation` (serialize.h lines 110-122). -/
structure ProfileLocation where
  id : Nat
  mappingID : Nat
  address : Nat
  line : List Line
  isFolded : Bool
deriving DecidableEq, Repr

/-- `Sample` (serialize.h lines 125-135). -/
structure Sample where
  locationID : List Nat
  value : List Int
  label : List Label
deriving DecidableEq, Repr

/-- The mutable state of a `Profile` object (serialize.h lines 140-171). -/
structure ProfileState where
  sampleType : List ValueType
  location : List ProfileLocation
  sample : List Sample
  mapping : List Mapping
  function : List ProfileFunction
  strings : List String
  dropFramesX : Int
  keepFramesX : Int
  timeNanos : Int
  durationNanos : Int
  periodType : ValueType
  period : Int
  commentX : List Int
  defaultSampleTypeX : Int
  functionIdMap : List (String × Int)
  locationIdMap : List (String × Int)
  stringIdMap : List (String × Int)
deriving DecidableEq, Repr

/-- An abstract profiling-tree node (serialize.h lines 174-183): the pure
identity accessors plus the kind-specific, possibly state-mutating
`getSamples` virtual method. -/
structure Node where
  getName : String
  getFilename : String
  getFileID : Int
  getLineNumber : Int
  getColumnNumber : Int
  getSamples : ProfileState → List Nat → List Sample × ProfileState

/-- `Profile::getStringId` (serialize.cc lines 299-309). -/
def getStringId (p : ProfileState) (s : String) : Int × ProfileState :=
  match p.stringIdMap.lookup s with
  | some id => (id, p)
  | none =>
    let id : Int := p.strings.length
    (id, { p with
            stringIdMap := (s, id) :: p.stringIdMap,
            strings := p.strings ++ [s] })

/-- `Profile::getFunctionId` (serialize.cc lines 283-297).  Note: the
dedup key is looked up in `functionIdMap`, but no entry is ever inserted
into that map. -/
def getFunctionId (p : ProfileState) (node : Node) : Int × ProfileState :=
  let name := node.getName
  let key := toString node.getFileID ++ ":" ++ name
  match p.functionIdMap.lookup key with
  | some ids => (ids, p)
  | none =>
    let r1 := getStringId p name
    let nameX := r1.1
    let r2 := getStringId r1.2 node.getFilename
    let filenameX := r2.1
    let p := r2.2
    let id : Int := p.function.length + 1
    let f : ProfileFunction :=
      ⟨u64ofI64 id, nameX, nameX, filenameX, node.getLineNumber⟩
    ((id : Int), { p with function := p.function ++ [f] })

/-- `Profile::getLine` (serialize.cc lines 279-281). -/
def getLine (p : ProfileState) (node : Node) : Line × ProfileState :=
  let r := getFunctionId p node
  (⟨u64ofI64 r.1, node.getLineNumber⟩, r.2)

/-- `Profile::getLocationId` (serialize.cc lines 262-277).  The dedup key
is looked up in `functionIdMap` (not the declared-but-unused
`locationIdMap`), and no entry is ever inserted. -/
def getLocationId (p : ProfileState) (node : Node) : Nat × ProfileState :=
  let key := toString node.getFileID ++ ":" ++ toString node.getLineNumber ++
    ":" ++ toString node.getColumnNumber ++ ":" ++ node.getName
  match p.functionIdMap.lookup key with
  | some ids => (u64ofI64 ids, p)
  | none =>
    let id : Nat := p.location.length + 1
    let r := getLine p node
    let lines : List Line := [r.1]
    let p := r.2
    let l : ProfileLocation := ⟨id, 0, 0, lines, false⟩
    (id, { p with location := p.location ++ [l] })

/-- `Profile::addSample` (serialize.cc lines 253-260). -/
def addSample (p : ProfileState) (node : Node) (stack : List Nat) :
    Nat × ProfileState :=
  let r := getLocationId p node
  let loc := r.1
  let p := r.2
  let stack := loc :: stack
  let r2 := node.getSamples p stack
  let nodeSamples := r2.1
  let p := r2.2
  (loc, { p with sample := p.sample ++ nodeSamples })

/-- The default-constructed `Profile` members before the constructor body
runs: all containers empty, all scalars zero. -/
def emptyProfile : ProfileState :=
  ⟨[], [], [], [], [], [], 0, 0, 0, 0, ⟨0, 0⟩, 0, [], 0, [], [], []⟩

/-- The `Profile` constructor (serialize.cc lines 231-245): interns the
empty string first, then the period type/unit, stores the scalar fields
and interns the drop/keep-frames strings. -/
def profileInit (periodType periodUnit : String) (period timeNanos
    durationNanos : Int) (dropFrames keepFramesX : String) : ProfileState :=
  let p := emptyProfile
  let r0 := getStringId p ""
  let p := r0.2
  let r1 := getStringId p periodType
  let r2 := getStringId r1.2 periodUnit
  let p := r2.2
  let p := { p with
              periodType := ⟨r1.1, r2.1⟩,
              period := period,
              timeNanos := timeNanos,
              durationNanos := durationNanos }
  let r3 := getStringId p dropFrames
  let r4 := getStringId r3.2 keepFramesX
  let p := r4.2
  { p with dropFramesX := r3.1, keepFramesX := r4.1, defaultSampleTypeX := 0 }

/-- `Profile::addSampleType` (serialize.cc lines 247-251). -/
def addSampleType (p : ProfileState) (type unit : String) : ProfileState :=
  let r1 := getStringId p type
  let r2 := getStringId r1.2 unit
  let p := r2.2
  { p with sampleType := p.sampleType ++ [⟨r1.1, r2.1⟩] }

/-! ## Entity encoders (serialize.cc lines 123-229) -/

/-- `ValueType::encode` (serialize.cc lines 127-130). -/
def valueTypeEncode (b : List Nat) (v : ValueType) : List Nat :=
  encodeInt64Opt (encodeInt64Opt b 1 v.typeX) 2 v.unitX

/-- `Label::encode` (serialize.cc lines 138-143). -/
def labelEncode (b : List Nat) (l : Label) : List Nat :=
  encodeInt64Opt (encodeInt64Opt (encodeInt64Opt (encodeInt64Opt b 1 l.keyX)
    2 l.strX) 3 l.num) 4 l.unitX

/-- `Mapping::encode` (serialize.cc lines 159-170); the `uint64_t` members
`fileX`/`buildIDX` are passed to the `int64_t` parameter of
`encodeInt64Opt`, modelled by `i64ofU64`. -/
def mappingEncode (b : List Nat) (m : Mapping) : List Nat :=
  let b := encodeUint64Opt b 1 m.id
  let b := encodeUint64Opt b 2 m.start
  let b := encodeUint64Opt b 3 m.limit
  let b := encodeUint64Opt b 4 m.offset
  let b := encodeInt64Opt b 5 (i64ofU64 m.fileX)
  let b := encodeInt64Opt b 6 (i64ofU64 m.buildIDX)
  let b := encodeBoolOpt b 7 m.hasFunctions
  let b := encodeBoolOpt b 8 m.hasFilenames
  let b := encodeBoolOpt b 9 m.hasLineNumbers
  encodeBoolOpt b 10 m.hasInlineFrames

/-- `Line::encode` (serialize.cc lines 176-179). -/
def lineEncode (b : List Nat) (l : Line) : List Nat :=
  encodeInt64Opt (encodeUint64Opt b 1 l.functionID) 2 l.line

/-- `ProfileFunction::encode` (serialize.cc lines 190-196). -/
def profileFunctionEncode (b : List Nat) (f : ProfileFunction) : List Nat :=
  let b := encodeUint64Opt b 1 f.id
  let b := encodeInt64Opt b 2 f.nameX
  let b := encodeInt64Opt b 3 f.systemNameX
  let b := encodeInt64Opt b 4 f.filenameX
  encodeInt64Opt b 5 f.startLine

/-- `ProfileLocation::encode` (serialize.cc lines 207-215); the `uint64_t`
members `mappingID`/`address` are passed to `encodeInt64Opt`. -/
def profileLocationEncode (b : List Nat) (l : ProfileLocation) : List Nat :=
  let b := encodeUint64Opt b 1 l.id
  let b := encodeInt64Opt b 2 (i64ofU64 l.mappingID)
  let b := encodeInt64Opt b 3 (i64ofU64 l.address)
  let b := l.line.foldl (fun b x => encodeMessage b 4 (lineEncode [] x)) b
  encodeBoolOpt b 5 l.isFolded

/-- `Sample::encode` (serialize.cc lines 223-229). -/
def sampleEncode (b : List Nat) (s : Sample) : List Nat :=
  let b := encodeUint64s b 1 s.locationID
  let b := encodeInt64s b 2 s.value
  s.label.foldl (fun b x => encodeMessage b 3 (labelEncode [] x)) b

/-- `Profile::encode` (serialize.cc lines 311-345). -/
def profileEncode (b : List Nat) (p : ProfileState) : List Nat :=
  let b := p.sampleType.foldl (fun b x => encodeMessage b 1 (valueTypeEncode [] x)) b
  let b := p.sample.foldl (fun b x => encodeMessage b 2 (sampleEncode [] x)) b
  let b := p.mapping.foldl (fun b x => encodeMessage b 3 (mappingEncode [] x)) b
  let b := p.location.foldl (fun b x => encodeMessage b 4 (profileLocationEncode [] x)) b
  let b := p.function.foldl (fun b x => encodeMessage b 5 (profileFunctionEncode [] x)) b
  let b := encodeStrings b 6 p.strings
  let b := encodeInt64Opt b 7 p.dropFramesX
  let b := encodeInt64Opt b 8 p.keepFramesX
  let b := encodeInt64Opt b 9 p.timeNanos
  let b := encodeInt64Opt b 10 p.durationNanos
  let b := if p.periodType.typeX ≠ 0 ∨ p.periodType.unitX ≠ 0 then
      encodeMessage b 11 (valueTypeEncode [] p.periodType)
    else b
  let b := encodeInt64Opt b 12 p.period
  let b := encodeInt64s b 13 p.commentX
  encodeInt64 b 14 p.defaultSampleTypeX

/-! ## The two node kinds and the tree walks (serialize.cc lines 347-505) -/

/-- One `v8::AllocationProfile::Allocation` record (`size_t size`,
`unsigned int count`). -/
structure Allocation where
  size : Nat
  count : Nat
deriving DecidableEq, Repr

/-- A `v8::AllocationProfile::Node`: identity fields, allocation records,
children. -/
inductive HeapTree where
  | mk (name scriptName : String) (scriptId lineNumber columnNumber : Int)
      (allocations : List Allocation) (children : List HeapTree)

def HeapTree.name : HeapTree → String | .mk n _ _ _ _ _ _ => n
def HeapTree.scriptName : HeapTree → String | .mk _ s _ _ _ _ _ => s
def HeapTree.scriptId : HeapTree → Int | .mk _ _ i _ _ _ _ => i
def HeapTree.lineNumber : HeapTree → Int | .mk _ _ _ l _ _ _ => l
def HeapTree.columnNumber : HeapTree → Int | .mk _ _ _ _ c _ _ => c
def HeapTree.allocations : HeapTree → List Allocation | .mk _ _ _ _ _ a _ => a
def HeapTree.children : HeapTree → List HeapTree | .mk _ _ _ _ _ _ c => c

/-- A `v8::CpuProfileNode`: identity fields, hit count, children. -/
inductive TimeTree where
  | mk (functionName scriptResourceName : String)
      (scriptId lineNumber columnNumber : Int) (hitCount : Int)
      (children : List TimeTree)

def TimeTree.functionName : TimeTree → String | .mk n _ _ _ _ _ _ => n
def TimeTree.scriptResourceName : TimeTree → String | .mk _ s _ _ _ _ _ => s
def TimeTree.scriptId : TimeTree → Int | .mk _ _ i _ _ _ _ => i
def TimeTree.lineNumber : TimeTree → Int | .mk _ _ _ l _ _ _ => l
def TimeTree.columnNumber : TimeTree → Int | .mk _ _ _ _ c _ _ => c
def TimeTree.hitCount : TimeTree → Int | .mk _ _ _ _ _ h _ => h
def TimeTree.children : TimeTree → List TimeTree | .mk _ _ _ _ _ _ c => c

/-- The allocation loop of `HeapNode::getSamples` (serialize.cc lines
362-374): for each allocation record, intern the "allocation" and
"bytes" label strings, then emit one Sample with the current stack,
values `[count, size*count]` and the single size label; samples are
produced in allocation order. -/
def heapSamples (stack : List Nat) :
    List Allocation → ProfileState → List Sample × ProfileState
  | [], p => ([], p)
  | allocation :: rest, p =>
    let rk := getStringId p "allocation"
    let ru := getStringId rk.2 "bytes"
    let p := ru.2
    let labels : List Label := [⟨rk.1, 0, (allocation.size : Int), ru.1⟩]
    let vals : List Int :=
      [(allocation.count : Int), ((allocation.size * allocation.count : Nat) : Int)]
    let s : Sample := Sample.mk stack vals labels
    let r := heapSamples stack rest p
    (s :: r.1, r.2)

/-- The `HeapNode` wrapper (serialize.cc lines 347-376): one Sample per
allocation record, with an "allocation"/"bytes" label carrying the
allocation size and values `[count, size*count]`. -/
def HeapNode (node : HeapTree) : Node where
  getName := node.name
  getFilename := node.scriptName
  getFileID := node.scriptId
  getLineNumber := node.lineNumber
  getColumnNumber := node.columnNumber
  getSamples := fun p stack => heapSamples stack node.allocations p

/-- The `TimeNode` wrapper (serialize.cc lines 378-406): exactly one
Sample with values `[hitCount, hitCount*samplingIntervalMicros]` and no
labels; the profile state is untouched. -/
def TimeNode (node : TimeTree) (samplingIntervalMicros : Int) : Node where
  getName := node.functionName
  getFilename := node.scriptResourceName
  getFileID := node.scriptId
  getLineNumber := node.lineNumber
  getColumnNumber := node.columnNumber
  getSamples := fun p stack =>
    let hitCount : Int := node.hitCount
    let vals : List Int := [hitCount, hitCount * samplingIntervalMicros]
    ([Sample.mk stack vals []], p)

/-- `TimeEntry` (serialize.cc lines 408-411). -/
structure TimeEntry where
  node : TimeTree
  stack : List Nat

/-- `HeapEntry` (serialize.cc lines 459-462). -/
structure HeapEntry where
  node : HeapTree
  stack : List Nat

/-- Total number of nodes in a forest of time-profile trees. -/
def timeForestCount : List TimeTree → Nat
  | [] => 0
  | TimeTree.mk _ _ _ _ _ _ children :: ts =>
    (1 + timeForestCount children) + timeForestCount ts

/-- Total number of nodes in a forest of heap-profile trees. -/
def heapForestCount : List HeapTree → Nat
  | [] => 0
  | HeapTree.mk _ _ _ _ _ _ children :: ts =>
    (1 + heapForestCount children) + heapForestCount ts

/-- The work-list loop of `serializeTimeProfile` (serialize.cc lines
435-451): pop the back entry, add its samples, push its children with the
extended stack.  The C++ `while (entries.size() > 0)` loop is modelled
with a fuel counter; since each iteration removes one tree node from the
work list, fuel equal to the total node count (as supplied by
`serializeTimeProfileState`) runs the loop to completion. -/
def timeWalk (samplingIntervalMicros : Int) :
    Nat → ProfileState → List TimeEntry → ProfileState
  | 0, p, _ => p
  | fuel + 1, p, entries =>
    match entries.getLast? with
    | none => p
    | some entry =>
      let entries0 := entries.dropLast
      let node := TimeNode entry.node samplingIntervalMicros
      let r := addSample p node entry.stack
      let loc := r.1
      let p := r.2
      let stack := loc :: entry.stack
      let entries1 := entries0 ++ entry.node.children.map fun c => TimeEntry.mk c stack
      timeWalk samplingIntervalMicros fuel p entries1

/-- The work-list loop of `serializeHeapProfile` (serialize.cc lines
483-499), fueled the same way. -/
def heapWalk :
    Nat → ProfileState → List HeapEntry → ProfileState
  | 0, p, _ => p
  | fuel + 1, p, entries =>
    match entries.getLast? with
    | none => p
    | some entry =>
      let entries0 := entries.dropLast
      let node := HeapNode entry.node
      let r := addSample p node entry.stack
      let loc := r.1
      let p := r.2
      let stack := loc :: entry.stack
      let entries1 := entries0 ++ entry.node.children.map fun c => HeapEntry.mk c stack
      heapWalk fuel p entries1

/-- A `v8::CpuProfile` as consumed by `serializeTimeProfile`: the
top-down root's children and the profile start/end times (microseconds). -/
structure CpuProfile where
  topDownRootChildren : List TimeTree
  startTime : Int
  endTime : Int

/-- An `v8::AllocationProfile` as consumed by `serializeHeapProfile`:
the root node's children. -/
structure AllocationProfile where
  rootChildren : List HeapTree

/-- `serializeTimeProfile` up to (but not including) the final
`p.encode(b)` call (serialize.cc lines 413-452): the fully populated
profile state after the tree walk. -/
def serializeTimeProfileState (profile : CpuProfile)
    (samplingIntervalMicros startTimeNanos : Int) : ProfileState :=
  let durationNanos := (profile.endTime - profile.startTime) * 1000
  let p := profileInit "wall" "microseconds" samplingIntervalMicros
    startTimeNanos durationNanos "" ""
  let p := addSampleType p "sample" "count"
  let p := addSampleType p "wall" "microseconds"
  let entries := profile.topDownRootChildren.map fun c => TimeEntry.mk c []
  timeWalk samplingIntervalMicros (timeForestCount profile.topDownRootChildren)
    p entries

/-- `serializeTimeProfile` (serialize.cc lines 413-457). -/
def serializeTimeProfile (profile : CpuProfile)
    (samplingIntervalMicros startTimeNanos : Int) : List Nat :=
  profileEncode []
    (serializeTimeProfileState profile samplingIntervalMicros startTimeNanos)

/-- `serializeHeapProfile` up to (but not including) the final
`p.encode(b)` call (serialize.cc lines 464-500).  The constructor call
`Profile("space", "bytes", intervalBytes, startTimeNanos)` leaves
`durationNanos` and the frame filters at their defaults. -/
def serializeHeapProfileState (profile : AllocationProfile)
    (intervalBytes startTimeNanos : Int) : ProfileState :=
  let p := profileInit "space" "bytes" intervalBytes startTimeNanos 0 "" ""
  let p := addSampleType p "objects" "count"
  let p := addSampleType p "space" "bytes"
  let entries := profile.rootChildren.map fun c => HeapEntry.mk c []
  heapWalk (heapForestCount profile.rootChildren) p entries

/-- `serializeHeapProfile` (serialize.cc lines 464-505). -/
def serializeHeapProfile (profile : AllocationProfile)
    (intervalBytes startTimeNanos : Int) : List Nat :=
  profileEncode []
    (serializeHeapProfileState profile intervalBytes startTimeNanos)

/-- The time-profile work-list loop processed as a FIFO queue (pop from
the front instead of the back) — the alternative traversal order the
spec declares equivalent. -/
def timeWalkQueue (samplingIntervalMicros : Int) :
    Nat → ProfileState → List TimeEntry → ProfileState
  | 0, p, _ => p
  | fuel + 1, p, entries =>
    match entries with
    | [] => p
    | entry :: entries0 =>
      let node := TimeNode entry.node samplingIntervalMicros
      let r := addSample p node entry.stack
      let loc := r.1
      let p := r.2
      let stack := loc :: entry.stack
      let entries1 := entries0 ++ entry.node.children.map fun c => TimeEntry.mk c stack
      timeWalkQueue samplingIntervalMicros fuel p entries1

/-- The heap-profile work-list loop processed as a FIFO queue. -/
def heapWalkQueue :
    Nat → ProfileState → List HeapEntry → ProfileState
  | 0, p, _ => p
  | fuel + 1, p, entries =>
    match entries with
    | [] => p
    | entry :: entries0 =>
      let node := HeapNode entry.node
      let r := addSample p node entry.stack
      let loc := r.1
      let p := r.2
      let stack := loc :: entry.stack
      let entries1 := entries0 ++ entry.node.children.map fun c => HeapEntry.mk c stack
      heapWalkQueue fuel p entries1

/-- `serializeTimeProfileState` with the work list processed as a queue. -/
def serializeTimeProfileStateQueue (profile : CpuProfile)
    (samplingIntervalMicros startTimeNanos : Int) : ProfileState :=
  let durationNanos := (profile.endTime - profile.startTime) * 1000
  let p := profileInit "wall" "microseconds" samplingIntervalMicros
    startTimeNanos durationNanos "" ""
  let p := addSampleType p "sample" "count"
  let p := addSampleType p "wall" "microseconds"
  let entries := profile.topDownRootChildren.map fun c => TimeEntry.mk c []
  timeWalkQueue samplingIntervalMicros
    (timeForestCount profile.topDownRootChildren) p entries

/-- `serializeHeapProfileState` with the work list processed as a queue. -/
def serializeHeapProfileStateQueue (profile : AllocationProfile)
    (intervalBytes startTimeNanos : Int) : ProfileState :=
  let p := profileInit "space" "bytes" intervalBytes startTimeNanos 0 "" ""
  let p := addSampleType p "objects" "count"
  let p := addSampleType p "space" "bytes"
  let entries := profile.rootChildren.map fun c => HeapEntry.mk c []
  heapWalkQueue (heapForestCount profile.rootChildren) p entries

/-! ## Buffer-append lemmas for the encoders -/

set_option maxRecDepth 4000

theorem encodeVarint_append (x : Nat) :
    ∀ b, encodeVarint b x = b ++ encodeVarint [] x := by
  induction x using Nat.strong_induction_on with
  | _ x ih =>
    intro b
    rw [encodeVarint]
    conv_rhs => rw [encodeVarint]
    by_cases h : 128 ≤ x
    · rw [if_pos h, if_pos h,
        ih (x / 128) (Nat.div_lt_self (by omega) (by omega))
          (b ++ [(x % 256 ||| 128) % 256]),
        ih (x / 128) (Nat.div_lt_self (by omega) (by omega))
          ([] ++ [(x % 256 ||| 128) % 256])]
      simp
    · rw [if_neg h, if_neg h]
      simp

theorem lor128_aux : ∀ a : Fin 256, (a.val ||| 128) % 256 = a.val % 128 + 128 := by
  decide

theorem lor128 {a : Nat} (h : a < 256) : (a ||| 128) % 256 = a % 128 + 128 :=
  lor128_aux ⟨a, h⟩

theorem decodeVarintSpec_encodeVarint (v : Nat) :
    decodeVarintSpec (encodeVarint [] v) = v := by
  induction v using Nat.strong_induction_on with
  | _ v ih =>
    rw [encodeVarint]
    by_cases h : 128 ≤ v
    · rw [if_pos h, encodeVarint_append, lor128 (Nat.mod_lt _ (by omega))]
      have h128 : v % 256 % 128 = v % 128 := Nat.mod_mod_of_dvd v (by norm_num)
      rw [h128, List.nil_append, List.singleton_append, decodeVarintSpec]
      rw [if_pos (by omega), Nat.add_mod_right,
        ih (v / 128) (Nat.div_lt_self (by omega) (by omega))]
      omega
    · rw [if_neg h]
      have hv : v % 256 = v := Nat.mod_eq_of_lt (by omega)
      rw [List.nil_append, hv, decodeVarintSpec, if_neg (by omega)]
      omega

theorem encodeLength_append (b : List Nat) (tag len : Nat) :
    encodeLength b tag len = b ++ encodeLength [] tag len := by
  unfold encodeLength
  rw [encodeVarint_append len (encodeVarint b ((tag <<< 3) ||| 2)),
    encodeVarint_append ((tag <<< 3) ||| 2) b,
    encodeVarint_append len (encodeVarint [] ((tag <<< 3) ||| 2)),
    List.append_assoc]

theorem encodeUint64_append (b : List Nat) (tag x : Nat) :
    encodeUint64 b tag x = b ++ encodeUint64 [] tag x := by
  unfold encodeUint64
  rw [encodeVarint_append x (encodeVarint b (tag <<< 3)),
    encodeVarint_append (tag <<< 3) b,
    encodeVarint_append x (encodeVarint [] (tag <<< 3)),
    List.append_assoc]

theorem encodeInt64_append (b : List Nat) (tag : Nat) (x : Int) :
    encodeInt64 b tag x = b ++ encodeInt64 [] tag x := by
  unfold encodeInt64
  exact encodeUint64_append b tag (u64ofI64 x)

/-- A left fold of appending steps over a list equals the flattened map. -/
theorem foldl_append_eq_flatten {α : Type} (f : α → List Nat)
    (g : List Nat → α → List Nat) (hg : ∀ b a, g b a = b ++ f a) :
    ∀ (l : List α) (b : List Nat), l.foldl g b = b ++ (l.map f).flatten := by
  intro l
  induction l with
  | nil => simp
  | cons a l ih =>
    intro b
    rw [List.foldl_cons, hg, ih (b ++ f a), List.map_cons, List.flatten_cons,
      List.append_assoc]

theorem encodeUint64s_eq (b : List Nat) (tag : Nat) (x : List Nat) :
    encodeUint64s b tag x =
      if 2 < x.length then
        b ++ encodeLength [] tag (x.map fun u => encodeVarint [] u).flatten.length
          ++ (x.map fun u => encodeVarint [] u).flatten
      else
        b ++ (x.map fun u => encodeUint64 [] tag u).flatten := by
  unfold encodeUint64s
  split
  · rw [foldl_append_eq_flatten (fun u => encodeVarint [] u)
        (fun b1 u => encodeVarint b1 u) (fun b a => encodeVarint_append a b) x []]
    simp only [List.nil_append]
    rw [encodeLength_append, List.append_assoc]
  · rw [foldl_append_eq_flatten (fun u => encodeUint64 [] tag u)
        (fun b u => encodeUint64 b tag u) (fun b a => encodeUint64_append b tag a) x b]

theorem encodeInt64s_eq (b : List Nat) (tag : Nat) (x : List Int) :
    encodeInt64s b tag x =
      if 2 < x.length then
        b ++ encodeLength [] tag (x.map fun u => encodeVarint [] (u64ofI64 u)).flatten.length
          ++ (x.map fun u => encodeVarint [] (u64ofI64 u)).flatten
      else
        b ++ (x.map fun u => encodeInt64 [] tag u).flatten := by
  unfold encodeInt64s
  split
  · rw [foldl_append_eq_flatten (fun u => encodeVarint [] (u64ofI64 u))
        (fun b1 u => encodeVarint b1 (u64ofI64 u))
        (fun b a => encodeVarint_append (u64ofI64 a) b) x []]
    simp only [List.nil_append]
    rw [encodeLength_append, List.append_assoc]
  · rw [foldl_append_eq_flatten (fun u => encodeInt64 [] tag u)
        (fun b u => encodeInt64 b tag u) (fun b a => encodeInt64_append b tag a) x b]

theorem encodeUint64Opt_eq (b : List Nat) (tag x : Nat) :
    encodeUint64Opt b tag x =
      b ++ if x = 0 then [] else encodeUint64 [] tag x := by
  unfold encodeUint64Opt
  split
  · simp
  · rw [encodeUint64_append]

theorem encodeInt64Opt_eq (b : List Nat) (tag : Nat) (x : Int) :
    encodeInt64Opt b tag x =
      b ++ if x = 0 then [] else encodeInt64 [] tag x := by
  unfold encodeInt64Opt
  split
  · simp
  · rw [encodeInt64_append]

theorem encodeString_append (b : List Nat) (tag : Nat) (s : String) :
    encodeString b tag s = b ++ encodeString [] tag s := by
  unfold encodeString
  rw [encodeLength_append, List.append_assoc]

theorem encodeStrings_eq (b : List Nat) (tag : Nat) (x : List String) :
    encodeStrings b tag x = b ++ (x.map fun s => encodeString [] tag s).flatten := by
  unfold encodeStrings
  rw [foldl_append_eq_flatten (fun s => encodeString [] tag s)
    (fun b s => encodeString b tag s) (fun b s => encodeString_append b tag s) x b]

theorem encodeMessage_append (b : List Nat) (tag : Nat) (b1 : List Nat) :
    encodeMessage b tag b1 = b ++ encodeMessage [] tag b1 := by
  unfold encodeMessage
  simp only []
  rw [encodeLength_append, List.append_assoc]

/-! ## Claims C3, C8, C9 -/

/-- C3: for every unsigned 64-bit integer `v` (indeed for every natural
number), decoding the byte sequence produced by `encodeVarint` into an
empty buffer with the standard protobuf base-128 varint decoder yields
exactly `v` — the implementation's per-step `& 0xFF` masking
notwithstanding, since the 8-bit truncation of the `char` cast restores
the standard `(x & 0x7F) | 0x80` byte. -/
theorem C3_varint_roundtrip (v : Nat) :
    decodeVarintSpec (encodeVarint [] v) = v :=
  decodeVarintSpec_encodeVarint v

/-- C8: `encodeUint64s` and `encodeInt64s` with more than 2 elements emit
one length-delimited field whose payload is the concatenation of the
elements' varints, and with 2 or fewer elements emit each element as its
own individually-tagged varint field. -/
theorem C8_packed_threshold (b : List Nat) (tag : Nat) (xs : List Nat)
    (ys : List Int) :
    encodeUint64s b tag xs =
      (if 2 < xs.length then
        b ++ encodeLength [] tag (xs.map fun u => encodeVarint [] u).flatten.length
          ++ (xs.map fun u => encodeVarint [] u).flatten
      else
        b ++ (xs.map fun u => encodeUint64 [] tag u).flatten) ∧
    encodeInt64s b tag ys =
      (if 2 < ys.length then
        b ++ encodeLength [] tag
            (ys.map fun u => encodeVarint [] (u64ofI64 u)).flatten.length
          ++ (ys.map fun u => encodeVarint [] (u64ofI64 u)).flatten
      else
        b ++ (ys.map fun u => encodeInt64 [] tag u).flatten) :=
  ⟨encodeUint64s_eq b tag xs, encodeInt64s_eq b tag ys⟩

/-- C9: `encodeUint64Opt(tag, 0)` and `encodeInt64Opt(tag, 0)` append
zero bytes to the buffer, and for every nonzero value they append exactly
the same bytes as `encodeUint64` / `encodeInt64` respectively. -/
theorem C9_optional_suppression :
    (∀ (b : List Nat) (tag : Nat), encodeUint64Opt b tag 0 = b) ∧
    (∀ (b : List Nat) (tag : Nat), encodeInt64Opt b tag 0 = b) ∧
    (∀ (b : List Nat) (tag : Nat) (x : Nat), x ≠ 0 →
      encodeUint64Opt b tag x = encodeUint64 b tag x) ∧
    (∀ (b : List Nat) (tag : Nat) (x : Int), x ≠ 0 →
      encodeInt64Opt b tag x = encodeInt64 b tag x) := by
  refine ⟨fun b tag => rfl, fun b tag => rfl, fun b tag x hx => ?_,
    fun b tag x hx => ?_⟩
  · unfold encodeUint64Opt
    rw [if_neg hx]
  · unfold encodeInt64Opt
    rw [if_neg hx]

/-- Witness for C9 at concrete inputs. -/
theorem C9_optional_suppression_witness :
    encodeUint64Opt [7] 3 0 = [7] ∧ encodeInt64Opt [7] 3 0 = [7] ∧
    (5 : Nat) ≠ 0 ∧ encodeUint64Opt [] 3 5 = encodeUint64 [] 3 5 ∧
    (-2 : Int) ≠ 0 ∧ encodeInt64Opt [] 3 (-2) = encodeInt64 [] 3 (-2) :=
  ⟨C9_optional_suppression.1 [7] 3, C9_optional_suppression.2.1 [7] 3,
    by decide, C9_optional_suppression.2.2.1 [] 3 5 (by decide),
    by decide, C9_optional_suppression.2.2.2 [] 3 (-2) (by decide)⟩

/-! ## Claim C7: string interning -/

/-- C7: on a fresh table, interning the empty string returns index 0; an
already-seen string returns its previously assigned index with the state
unchanged; an unseen string is appended at index = current table length
(its insertion order) and found there afterwards; re-interning is
idempotent. -/
theorem C7_string_interning :
    (getStringId emptyProfile "").1 = 0 ∧
    (∀ (p : ProfileState) (s : String) (i : Int),
      p.stringIdMap.lookup s = some i → getStringId p s = (i, p)) ∧
    (∀ (p : ProfileState) (s : String), p.stringIdMap.lookup s = none →
      (getStringId p s).1 = p.strings.length ∧
      (getStringId p s).2.strings = p.strings ++ [s] ∧
      (getStringId p s).2.stringIdMap.lookup s = some (p.strings.length : Int)) ∧
    (∀ (p : ProfileState) (s : String),
      getStringId (getStringId p s).2 s = getStringId p s) := by
  refine ⟨rfl, fun p s i h => ?_, fun p s h => ?_, fun p s => ?_⟩
  · unfold getStringId
    rw [h]
  · unfold getStringId
    rw [h]
    refine ⟨rfl, rfl, ?_⟩
    simp [List.lookup]
  · rcases h : p.stringIdMap.lookup s with _ | i
    · conv_lhs => rw [show (getStringId p s).2 =
        { p with stringIdMap := (s, (p.strings.length : Int)) :: p.stringIdMap,
                 strings := p.strings ++ [s] } from by unfold getStringId; rw [h]]
      unfold getStringId
      rw [h]
      simp [List.lookup]
    · conv_lhs => rw [show (getStringId p s).2 = p from by
        unfold getStringId; rw [h]]

/-- Witness for C7 at concrete inputs. -/
theorem C7_string_interning_witness :
    (emptyProfile.stringIdMap.lookup "x" = none ∧
      (getStringId emptyProfile "x").1 = emptyProfile.strings.length ∧
      (getStringId emptyProfile "x").2.strings = emptyProfile.strings ++ ["x"] ∧
      (getStringId emptyProfile "x").2.stringIdMap.lookup "x" =
        some (emptyProfile.strings.length : Int)) ∧
    ((getStringId emptyProfile "x").2.stringIdMap.lookup "x" = some 0 ∧
      getStringId (getStringId emptyProfile "x").2 "x" =
        (0, (getStringId emptyProfile "x").2)) :=
  ⟨⟨by decide, C7_string_interning.2.2.1 emptyProfile "x" (by decide)⟩,
    by decide, C7_string_interning.2.1 _ "x" 0 (by decide)⟩

/-! ## Claim C1: dedup idempotence (refuted by the code) -/

/-- A concrete node exercising the dedup maps. -/
def fooNode : Node :=
  { getName := "foo", getFilename := "f.js", getFileID := 1,
    getLineNumber := 10, getColumnNumber := 0,
    getSamples := fun p _ => ([], p) }

/-- C1 fails on the code: `getFunctionId` and `getLocationId` look their
dedup keys up in `functionIdMap` but never insert into it, so a second
call with structurally identical identity fields allocates a fresh entry:
the returned IDs are 1 then 2, and the Function (resp. Location) list
grows from 1 to 2 entries. -/
theorem C1_dedup_not_idempotent :
    (getFunctionId (profileInit "" "" 0 0 0 "" "") fooNode).1 = 1 ∧
    (getFunctionId (getFunctionId (profileInit "" "" 0 0 0 "" "") fooNode).2
      fooNode).1 = 2 ∧
    (getFunctionId (profileInit "" "" 0 0 0 "" "") fooNode).2.function.length = 1 ∧
    (getFunctionId (getFunctionId (profileInit "" "" 0 0 0 "" "") fooNode).2
      fooNode).2.function.length = 2 ∧
    (getLocationId (profileInit "" "" 0 0 0 "" "") fooNode).1 = 1 ∧
    (getLocationId (getLocationId (profileInit "" "" 0 0 0 "" "") fooNode).2
      fooNode).1 = 2 ∧
    (getLocationId (getLocationId (profileInit "" "" 0 0 0 "" "") fooNode).2
      fooNode).2.location.length = 2 := by
  decide

/-! ## State-preservation lemmas for `getStringId` -/

theorem getStringId_snd_function (p : ProfileState) (s : String) :
    (getStringId p s).2.function = p.function := by
  unfold getStringId
  cases h : p.stringIdMap.lookup s <;> rfl

theorem getStringId_snd_location (p : ProfileState) (s : String) :
    (getStringId p s).2.location = p.location := by
  unfold getStringId
  cases h : p.stringIdMap.lookup s <;> rfl

theorem getStringId_snd_functionIdMap (p : ProfileState) (s : String) :
    (getStringId p s).2.functionIdMap = p.functionIdMap := by
  unfold getStringId
  cases h : p.stringIdMap.lookup s <;> rfl

theorem getStringId_snd_sample (p : ProfileState) (s : String) :
    (getStringId p s).2.sample = p.sample := by
  unfold getStringId
  cases h : p.stringIdMap.lookup s <;> rfl

/-! ## Claim C10: shape of freshly created Function entries -/

/-- C10: whenever `getFunctionId` allocates a new entry (its dedup key is
absent from `functionIdMap`), the appended Function entry has its
system-name string index equal to its name string index and its
start-line equal to the node's line number, and the Line built by
`getLine` carries that same line number. -/
theorem C10_function_entry_fields (p : ProfileState) (node : Node)
    (h : p.functionIdMap.lookup
      (toString node.getFileID ++ ":" ++ node.getName) = none) :
    (∃ f : ProfileFunction,
      (getFunctionId p node).2.function = p.function ++ [f] ∧
      f.systemNameX = f.nameX ∧
      f.startLine = node.getLineNumber) ∧
    (getLine p node).1.line = node.getLineNumber := by
  constructor
  · unfold getFunctionId
    simp only [h]
    exact ⟨ProfileFunction.mk
        (u64ofI64 (((getStringId (getStringId p node.getName).2 node.getFilename).2.function.length : Int) + 1))
        (getStringId p node.getName).1
        (getStringId p node.getName).1
        (getStringId (getStringId p node.getName).2 node.getFilename).1
        node.getLineNumber,
      by rw [getStringId_snd_function, getStringId_snd_function], rfl, rfl⟩
  · unfold getLine
    rfl

/-- Witness for C10 at a concrete state and node. -/
theorem C10_function_entry_fields_witness :
    emptyProfile.functionIdMap.lookup
      (toString fooNode.getFileID ++ ":" ++ fooNode.getName) = none ∧
    ((∃ f : ProfileFunction,
      (getFunctionId emptyProfile fooNode).2.function =
        emptyProfile.function ++ [f] ∧
      f.systemNameX = f.nameX ∧
      f.startLine = fooNode.getLineNumber) ∧
    (getLine emptyProfile fooNode).1.line = fooNode.getLineNumber) :=
  ⟨rfl, C10_function_entry_fields emptyProfile fooNode rfl⟩

/-! ## Claim C6: sample production -/

theorem heapSamples_interned (stack : List Nat) (ka kb : Int) :
    ∀ (l : List Allocation) (p : ProfileState),
    p.stringIdMap.lookup "allocation" = some ka →
    p.stringIdMap.lookup "bytes" = some kb →
    heapSamples stack l p =
      (l.map fun a => Sample.mk stack
        [(a.count : Int), ((a.size * a.count : Nat) : Int)]
        [⟨ka, 0, (a.size : Int), kb⟩], p) := by
  intro l
  induction l with
  | nil => intro p _ _; rfl
  | cons a l ih =>
    intro p ha hb
    have hk : getStringId p "allocation" = (ka, p) := by
      unfold getStringId; rw [ha]
    have hu : getStringId p "bytes" = (kb, p) := by
      unfold getStringId; rw [hb]
    unfold heapSamples
    simp only [hk, hu, ih p ha hb, List.map_cons]

/-- C6: `addSample` resolves the node's location ID, prepends it to the
given stack, appends all samples the node produces for that stack, and
returns the location ID; a time-profile node yields exactly one Sample
with values `[hitCount, hitCount*samplingInterval]` and no labels; a
heap-profile node yields one Sample per allocation record with values
`[count, size*count]` and a single allocation-size-in-bytes label. -/
theorem C6_sample_production :
    (∀ (p : ProfileState) (node : Node) (stack : List Nat),
      (addSample p node stack).1 = (getLocationId p node).1 ∧
      (addSample p node stack).2.sample =
        (node.getSamples (getLocationId p node).2
          ((getLocationId p node).1 :: stack)).2.sample ++
        (node.getSamples (getLocationId p node).2
          ((getLocationId p node).1 :: stack)).1) ∧
    (∀ (t : TimeTree) (i : Int) (p : ProfileState) (stack : List Nat),
      (TimeNode t i).getSamples p stack =
        ([Sample.mk stack [t.hitCount, t.hitCount * i] []], p)) ∧
    (∀ (t : HeapTree) (p : ProfileState) (stack : List Nat) (ka kb : Int),
      p.stringIdMap.lookup "allocation" = some ka →
      p.stringIdMap.lookup "bytes" = some kb →
      (HeapNode t).getSamples p stack =
        (t.allocations.map fun a => Sample.mk stack
          [(a.count : Int), ((a.size * a.count : Nat) : Int)]
          [⟨ka, 0, (a.size : Int), kb⟩], p)) :=
  ⟨fun _ _ _ => ⟨rfl, rfl⟩, fun _ _ _ _ => rfl,
    fun t p stack ka kb ha hb =>
      heapSamples_interned stack ka kb t.allocations p ha hb⟩

/-- Concrete data for the C6 witness. -/
def c6Tree : TimeTree := TimeTree.mk "f" "g.js" 1 2 3 4 []

def c6Heap : HeapTree := HeapTree.mk "h" "s.js" 1 2 3 [⟨8, 2⟩] []

def c6P : ProfileState :=
  (getStringId (getStringId emptyProfile "allocation").2 "bytes").2

/-- Witness for C6. -/
theorem C6_sample_production_witness :
    ((addSample emptyProfile (TimeNode c6Tree 1000) []).1 =
      (getLocationId emptyProfile (TimeNode c6Tree 1000)).1) ∧
    ((TimeNode c6Tree 1000).getSamples emptyProfile [5] =
      ([Sample.mk [5] [c6Tree.hitCount, c6Tree.hitCount * 1000] []],
        emptyProfile)) ∧
    (c6P.stringIdMap.lookup "allocation" = some 0 ∧
      c6P.stringIdMap.lookup "bytes" = some 1 ∧
      (HeapNode c6Heap).getSamples c6P [5] =
        (c6Heap.allocations.map fun a => Sample.mk [5]
          [(a.count : Int), ((a.size * a.count : Nat) : Int)]
          [⟨0, 0, (a.size : Int), 1⟩], c6P)) :=
  ⟨(C6_sample_production.1 emptyProfile (TimeNode c6Tree 1000) []).1,
   C6_sample_production.2.1 c6Tree 1000 emptyProfile [5],
   by decide, by decide,
   C6_sample_production.2.2 c6Heap c6P [5] 0 1 (by decide) (by decide)⟩

/-! ## Claim C4: end-to-end time-profile scenario -/

/-- The 2-node call tree root → foo (file 1, line 10, hits 5) → bar
(file 1, line 20, hits 3). -/
def c4bar : TimeTree := TimeTree.mk "bar" "" 1 20 0 3 []

def c4foo : TimeTree := TimeTree.mk "foo" "" 1 10 0 5 [c4bar]

def c4profile : CpuProfile := ⟨[c4foo], 0, 0⟩

/-- The profile built from the C4 scenario with sampling interval 1000
microseconds. -/
def c4P : ProfileState := serializeTimeProfileState c4profile 1000 0

/-- C4: the built profile has exactly 2 sample-type declarations
(`sample`/`count`, `wall`/`microseconds`), 2 Functions, 2 Locations and
2 Samples; foo's Sample has stack `[locationID(foo)]` = `[1]` and values
`[5, 5000]`, bar's Sample has stack `[locationID(bar), locationID(foo)]`
= `[2, 1]` and values `[3, 3000]` (locations 1 and 2 carry foo's and
bar's line/function respectively, as the string table confirms). -/
theorem C4_end_to_end_time :
    c4P.sampleType.length = 2 ∧
    (c4P.sampleType.map fun vt =>
      (c4P.strings.getD vt.typeX.toNat "", c4P.strings.getD vt.unitX.toNat "")) =
      [("sample", "count"), ("wall", "microseconds")] ∧
    c4P.function.length = 2 ∧
    c4P.location.length = 2 ∧
    c4P.sample.length = 2 ∧
    c4P.sample = [Sample.mk [1] [5, 5000] [], Sample.mk [2, 1] [3, 3000] []] ∧
    c4P.location = [ProfileLocation.mk 1 0 0 [Line.mk 1 10] false,
      ProfileLocation.mk 2 0 0 [Line.mk 2 20] false] ∧
    c4P.strings.getD 5 "" = "foo" ∧ c4P.strings.getD 6 "" = "bar" ∧
    c4P.function = [ProfileFunction.mk 1 5 5 0 10, ProfileFunction.mk 2 6 6 0 20] := by
  have h : timeForestCount [c4foo] = 2 := by simp [timeForestCount, c4foo, c4bar]
  unfold c4P serializeTimeProfileState
  simp only [c4profile, h]
  decide

/-! ## Claim C5: `Profile::encode` field layout -/

theorem ite_encodeMessage_eq (c : Prop) [Decidable c] (b : List Nat)
    (tag : Nat) (m : List Nat) :
    (if c then encodeMessage b tag m else b) =
      b ++ if c then encodeMessage [] tag m else [] := by
  split
  · rw [encodeMessage_append]
  · simp

theorem encodeInt64s_append (b : List Nat) (tag : Nat) (x : List Int) :
    encodeInt64s b tag x = b ++ encodeInt64s [] tag x := by
  rw [encodeInt64s_eq, encodeInt64s_eq]
  split <;> simp

/-- Field layout of `Profile::encode` as the spec describes it (section
4.3 `encode(buffer)`): the fourteen field groups concatenated in
ascending tag order — repeated ValueType messages (1), Sample messages
(2), Mapping messages (3), Location messages (4), Function messages (5),
the string table as repeated strings (6), the drop/keep-frames indices
and start time/duration suppressed when zero (7-10), the period-type
message only when one of its indices is nonzero (11), the period
suppressed when zero (12), the comment indices (13), and the
default-sample-type index unconditionally, even when zero (14). -/
def encodeLayoutSpec (p : ProfileState) : List Nat :=
  (p.sampleType.map fun x => encodeMessage [] 1 (valueTypeEncode [] x)).flatten ++
  (p.sample.map fun x => encodeMessage [] 2 (sampleEncode [] x)).flatten ++
  (p.mapping.map fun x => encodeMessage [] 3 (mappingEncode [] x)).flatten ++
  (p.location.map fun x => encodeMessage [] 4 (profileLocationEncode [] x)).flatten ++
  (p.function.map fun x => encodeMessage [] 5 (profileFunctionEncode [] x)).flatten ++
  (p.strings.map fun s => encodeString [] 6 s).flatten ++
  (if p.dropFramesX = 0 then [] else encodeInt64 [] 7 p.dropFramesX) ++
  (if p.keepFramesX = 0 then [] else encodeInt64 [] 8 p.keepFramesX) ++
  (if p.timeNanos = 0 then [] else encodeInt64 [] 9 p.timeNanos) ++
  (if p.durationNanos = 0 then [] else encodeInt64 [] 10 p.durationNanos) ++
  (if p.periodType.typeX ≠ 0 ∨ p.periodType.unitX ≠ 0 then
    encodeMessage [] 11 (valueTypeEncode [] p.periodType) else []) ++
  (if p.period = 0 then [] else encodeInt64 [] 12 p.period) ++
  encodeInt64s [] 13 p.commentX ++
  encodeInt64 [] 14 p.defaultSampleTypeX

/-- C5: for every profile state and buffer, `Profile::encode` appends
exactly the fourteen field groups of the spec's layout in ascending tag
order, with the stated optional-suppression rules and with field 14
always emitted. -/
theorem C5_encode_field_layout (b : List Nat) (p : ProfileState) :
    profileEncode b p = b ++ encodeLayoutSpec p := by
  unfold profileEncode encodeLayoutSpec
  dsimp only
  rw [foldl_append_eq_flatten (fun x => encodeMessage [] 1 (valueTypeEncode [] x)) _
      (fun b x => encodeMessage_append b 1 (valueTypeEncode [] x)) p.sampleType b,
    foldl_append_eq_flatten (fun x => encodeMessage [] 2 (sampleEncode [] x)) _
      (fun b x => encodeMessage_append b 2 (sampleEncode [] x)) p.sample,
    foldl_append_eq_flatten (fun x => encodeMessage [] 3 (mappingEncode [] x)) _
      (fun b x => encodeMessage_append b 3 (mappingEncode [] x)) p.mapping,
    foldl_append_eq_flatten (fun x => encodeMessage [] 4 (profileLocationEncode [] x)) _
      (fun b x => encodeMessage_append b 4 (profileLocationEncode [] x)) p.location,
    foldl_append_eq_flatten (fun x => encodeMessage [] 5 (profileFunctionEncode [] x)) _
      (fun b x => encodeMessage_append b 5 (profileFunctionEncode [] x)) p.function,
    encodeStrings_eq, encodeInt64Opt_eq, encodeInt64Opt_eq, encodeInt64Opt_eq,
    encodeInt64Opt_eq, ite_encodeMessage_eq, encodeInt64Opt_eq, encodeInt64s_append,
    encodeInt64_append]
  simp [List.append_assoc]

/-! ## Claim C2: traversal-order invariance -/

theorem getFunctionId_stats (p : ProfileState) (node : Node)
    (h : p.functionIdMap = []) :
    (getFunctionId p node).2.function.length = p.function.length + 1 ∧
    (getFunctionId p node).2.location = p.location ∧
    (getFunctionId p node).2.functionIdMap = [] := by
  unfold getFunctionId
  rw [h]
  refine ⟨?_, ?_, ?_⟩
  · simp [getStringId_snd_function]
  · simp [getStringId_snd_location]
  · simp [getStringId_snd_functionIdMap, h]

theorem getLocationId_stats (p : ProfileState) (node : Node)
    (h : p.functionIdMap = []) :
    (getLocationId p node).2.location.length = p.location.length + 1 ∧
    (getLocationId p node).2.function.length = p.function.length + 1 ∧
    (getLocationId p node).2.functionIdMap = [] := by
  unfold getLocationId getLine
  rw [h]
  refine ⟨?_, ?_, ?_⟩
  · simp [(getFunctionId_stats p node h).2.1]
  · simp [(getFunctionId_stats p node h).1]
  · simp [(getFunctionId_stats p node h).2.2]

theorem heapSamples_preserves (stack : List Nat) :
    ∀ (l : List Allocation) (p : ProfileState),
    (heapSamples stack l p).2.function = p.function ∧
    (heapSamples stack l p).2.location = p.location ∧
    (heapSamples stack l p).2.functionIdMap = p.functionIdMap := by
  intro l
  induction l with
  | nil => intro p; exact ⟨rfl, rfl, rfl⟩
  | cons a l ih =>
    intro p
    unfold heapSamples
    dsimp only
    refine ⟨?_, ?_, ?_⟩
    · rw [(ih _).1, getStringId_snd_function, getStringId_snd_function]
    · rw [(ih _).2.1, getStringId_snd_location, getStringId_snd_location]
    · rw [(ih _).2.2, getStringId_snd_functionIdMap, getStringId_snd_functionIdMap]

theorem addSample_time_stats (p : ProfileState) (t : TimeTree) (i : Int)
    (st : List Nat) (h : p.functionIdMap = []) :
    (addSample p (TimeNode t i) st).2.function.length = p.function.length + 1 ∧
    (addSample p (TimeNode t i) st).2.location.length = p.location.length + 1 ∧
    (addSample p (TimeNode t i) st).2.functionIdMap = [] := by
  unfold addSample
  dsimp only
  exact ⟨(getLocationId_stats p (TimeNode t i) h).2.1,
    (getLocationId_stats p (TimeNode t i) h).1,
    (getLocationId_stats p (TimeNode t i) h).2.2⟩

theorem addSample_heap_stats (p : ProfileState) (t : HeapTree)
    (st : List Nat) (h : p.functionIdMap = []) :
    (addSample p (HeapNode t) st).2.function.length = p.function.length + 1 ∧
    (addSample p (HeapNode t) st).2.location.length = p.location.length + 1 ∧
    (addSample p (HeapNode t) st).2.functionIdMap = [] := by
  unfold addSample
  dsimp only
  simp only [HeapNode]
  refine ⟨?_, ?_, ?_⟩
  · rw [(heapSamples_preserves _ t.allocations _).1]
    exact (getLocationId_stats p (HeapNode t) h).2.1
  · rw [(heapSamples_preserves _ t.allocations _).2.1]
    exact (getLocationId_stats p (HeapNode t) h).1
  · rw [(heapSamples_preserves _ t.allocations _).2.2]
    exact (getLocationId_stats p (HeapNode t) h).2.2

theorem timeForestCount_cons (t : TimeTree) (ts : List TimeTree) :
    timeForestCount (t :: ts) =
      (1 + timeForestCount t.children) + timeForestCount ts := by
  cases t
  rw [timeForestCount]
  rfl

theorem timeForestCount_append (xs ys : List TimeTree) :
    timeForestCount (xs ++ ys) = timeForestCount xs + timeForestCount ys := by
  induction xs with
  | nil => simp [timeForestCount]
  | cons t ts ih =>
    rw [List.cons_append, timeForestCount_cons, timeForestCount_cons, ih]
    omega

theorem heapForestCount_cons (t : HeapTree) (ts : List HeapTree) :
    heapForestCount (t :: ts) =
      (1 + heapForestCount t.children) + heapForestCount ts := by
  cases t
  rw [heapForestCount]
  rfl

theorem heapForestCount_append (xs ys : List HeapTree) :
    heapForestCount (xs ++ ys) = heapForestCount xs + heapForestCount ys := by
  induction xs with
  | nil => simp [heapForestCount]
  | cons t ts ih =>
    rw [List.cons_append, heapForestCount_cons, heapForestCount_cons, ih]
    omega

theorem timeForestCount_nil : timeForestCount [] = 0 := by
  rw [timeForestCount]

theorem heapForestCount_nil : heapForestCount [] = 0 := by
  rw [heapForestCount]

/-- Each iteration of the stack-order time walk appends exactly one
Location and one Function (dedup never fires, since `functionIdMap` stays
empty), so with fuel equal to the node count both tables grow by the node
count. -/
theorem timeWalk_lengths (i : Int) :
    ∀ (fuel : Nat) (p : ProfileState) (entries : List TimeEntry),
    timeForestCount (entries.map TimeEntry.node) = fuel →
    p.functionIdMap = [] →
    (timeWalk i fuel p entries).function.length = p.function.length + fuel ∧
    (timeWalk i fuel p entries).location.length = p.location.length + fuel := by
  intro fuel
  induction fuel with
  | zero =>
    intro p entries _ _
    simp [timeWalk]
  | succ n ih =>
    intro p entries h hm
    obtain ⟨es, e, rfl⟩ : ∃ es e, entries = es ++ [e] := by
      rcases List.eq_nil_or_concat entries with rfl | ⟨es, e, h'⟩
      · rw [List.map_nil, timeForestCount_nil] at h
        omega
      · exact ⟨es, e, by rw [h', List.concat_eq_append]⟩
    rw [timeWalk]
    simp only [List.getLast?_concat, List.dropLast_concat]
    have hnodes : (e.node.children.map fun c =>
        TimeEntry.mk c ((addSample p (TimeNode e.node i) e.stack).1 :: e.stack)).map
        TimeEntry.node = e.node.children := by
      have hcomp : TimeEntry.node ∘ (fun c =>
          TimeEntry.mk c ((addSample p (TimeNode e.node i) e.stack).1 :: e.stack)) =
          id := rfl
      rw [List.map_map, hcomp, List.map_id]
    have hcount : timeForestCount
        ((es ++ e.node.children.map fun c =>
          TimeEntry.mk c ((addSample p (TimeNode e.node i) e.stack).1 :: e.stack)).map
          TimeEntry.node) = n := by
      rw [List.map_append, timeForestCount_append, hnodes]
      rw [List.map_append, timeForestCount_append, List.map_cons, List.map_nil,
        timeForestCount_cons, timeForestCount_nil] at h
      omega
    have hq := addSample_time_stats p e.node i e.stack hm
    have hrec := ih (addSample p (TimeNode e.node i) e.stack).2
      (es ++ e.node.children.map fun c =>
        TimeEntry.mk c ((addSample p (TimeNode e.node i) e.stack).1 :: e.stack))
      hcount hq.2.2
    omega

/-- The queue-order time walk grows the tables identically. -/
theorem timeWalkQueue_lengths (i : Int) :
    ∀ (fuel : Nat) (p : ProfileState) (entries : List TimeEntry),
    timeForestCount (entries.map TimeEntry.node) = fuel →
    p.functionIdMap = [] →
    (timeWalkQueue i fuel p entries).function.length = p.function.length + fuel ∧
    (timeWalkQueue i fuel p entries).location.length = p.location.length + fuel := by
  intro fuel
  induction fuel with
  | zero =>
    intro p entries _ _
    simp [timeWalkQueue]
  | succ n ih =>
    intro p entries h hm
    cases entries with
    | nil =>
      rw [List.map_nil, timeForestCount_nil] at h
      omega
    | cons e es =>
      rw [timeWalkQueue]
      have hcomp : TimeEntry.node ∘ (fun c =>
          TimeEntry.mk c ((addSample p (TimeNode e.node i) e.stack).1 :: e.stack)) =
          id := rfl
      have hcount : timeForestCount
          ((es ++ e.node.children.map fun c =>
            TimeEntry.mk c ((addSample p (TimeNode e.node i) e.stack).1 :: e.stack)).map
            TimeEntry.node) = n := by
        rw [List.map_append, timeForestCount_append, List.map_map, hcomp,
          List.map_id]
        rw [List.map_cons, timeForestCount_cons] at h
        omega
      have hq := addSample_time_stats p e.node i e.stack hm
      have hrec := ih (addSample p (TimeNode e.node i) e.stack).2
        (es ++ e.node.children.map fun c =>
          TimeEntry.mk c ((addSample p (TimeNode e.node i) e.stack).1 :: e.stack))
        hcount hq.2.2
      omega

/-- Stack-order heap walk: same growth. -/
theorem heapWalk_lengths :
    ∀ (fuel : Nat) (p : ProfileState) (entries : List HeapEntry),
    heapForestCount (entries.map HeapEntry.node) = fuel →
    p.functionIdMap = [] →
    (heapWalk fuel p entries).function.length = p.function.length + fuel ∧
    (heapWalk fuel p entries).location.length = p.location.length + fuel := by
  intro fuel
  induction fuel with
  | zero =>
    intro p entries _ _
    simp [heapWalk]
  | succ n ih =>
    intro p entries h hm
    obtain ⟨es, e, rfl⟩ : ∃ es e, entries = es ++ [e] := by
      rcases List.eq_nil_or_concat entries with rfl | ⟨es, e, h'⟩
      · rw [List.map_nil, heapForestCount_nil] at h
        omega
      · exact ⟨es, e, by rw [h', List.concat_eq_append]⟩
    rw [heapWalk]
    simp only [List.getLast?_concat, List.dropLast_concat]
    have hcomp : HeapEntry.node ∘ (fun c =>
        HeapEntry.mk c ((addSample p (HeapNode e.node) e.stack).1 :: e.stack)) =
        id := rfl
    have hcount : heapForestCount
        ((es ++ e.node.children.map fun c =>
          HeapEntry.mk c ((addSample p (HeapNode e.node) e.stack).1 :: e.stack)).map
          HeapEntry.node) = n := by
      rw [List.map_append, heapForestCount_append, List.map_map, hcomp,
        List.map_id]
      rw [List.map_append, heapForestCount_append, List.map_cons, List.map_nil,
        heapForestCount_cons, heapForestCount_nil] at h
      omega
    have hq := addSample_heap_stats p e.node e.stack hm
    have hrec := ih (addSample p (HeapNode e.node) e.stack).2
      (es ++ e.node.children.map fun c =>
        HeapEntry.mk c ((addSample p (HeapNode e.node) e.stack).1 :: e.stack))
      hcount hq.2.2
    omega

/-- Queue-order heap walk: same growth. -/
theorem heapWalkQueue_lengths :
    ∀ (fuel : Nat) (p : ProfileState) (entries : List HeapEntry),
    heapForestCount (entries.map HeapEntry.node) = fuel →
    p.functionIdMap = [] →
    (heapWalkQueue fuel p entries).function.length = p.function.length + fuel ∧
    (heapWalkQueue fuel p entries).location.length = p.location.length + fuel := by
  intro fuel
  induction fuel with
  | zero =>
    intro p entries _ _
    simp [heapWalkQueue]
  | succ n ih =>
    intro p entries h hm
    cases entries with
    | nil =>
      rw [List.map_nil, heapForestCount_nil] at h
      omega
    | cons e es =>
      rw [heapWalkQueue]
      have hcomp : HeapEntry.node ∘ (fun c =>
          HeapEntry.mk c ((addSample p (HeapNode e.node) e.stack).1 :: e.stack)) =
          id := rfl
      have hcount : heapForestCount
          ((es ++ e.node.children.map fun c =>
            HeapEntry.mk c ((addSample p (HeapNode e.node) e.stack).1 :: e.stack)).map
            HeapEntry.node) = n := by
        rw [List.map_append, heapForestCount_append, List.map_map, hcomp,
          List.map_id]
        rw [List.map_cons, heapForestCount_cons] at h
        omega
      have hq := addSample_heap_stats p e.node e.stack hm
      have hrec := ih (addSample p (HeapNode e.node) e.stack).2
        (es ++ e.node.children.map fun c =>
          HeapEntry.mk c ((addSample p (HeapNode e.node) e.stack).1 :: e.stack))
        hcount hq.2.2
      omega

theorem profileInit_base (pt pu : String) (per tn dn : Int) (dF kF : String) :
    (profileInit pt pu per tn dn dF kF).function = [] ∧
    (profileInit pt pu per tn dn dF kF).location = [] ∧
    (profileInit pt pu per tn dn dF kF).functionIdMap = [] := by
  unfold profileInit emptyProfile
  refine ⟨?_, ?_, ?_⟩ <;>
    simp [getStringId_snd_function, getStringId_snd_location,
      getStringId_snd_functionIdMap]

theorem addSampleType_base (p : ProfileState) (t u : String) :
    (addSampleType p t u).function = p.function ∧
    (addSampleType p t u).location = p.location ∧
    (addSampleType p t u).functionIdMap = p.functionIdMap := by
  unfold addSampleType
  refine ⟨?_, ?_, ?_⟩ <;>
    simp [getStringId_snd_function, getStringId_snd_location,
      getStringId_snd_functionIdMap]

/-- Two sibling leaves with different line numbers, for the C2
counterexample. -/
def c2a : TimeTree := TimeTree.mk "a" "" 1 1 0 1 []

def c2b : TimeTree := TimeTree.mk "b" "" 1 2 0 1 []

def c2profile : CpuProfile := ⟨[c2a, c2b], 0, 0⟩

/-- C2 counterexample: processing the work list as a LIFO stack versus a
FIFO queue yields different Location tables (the stack order visits `b`
first, so location ID 1 carries `b`'s line 2; the queue order gives ID 1
to `a`'s line 1), refuting the claim that the tables and ID assignments
are invariant to visitation order. -/
theorem C2_traversal_order_counterexample :
    (serializeTimeProfileState c2profile 1000 0).location ≠
      (serializeTimeProfileStateQueue c2profile 1000 0).location := by
  have h : timeForestCount [c2a, c2b] = 2 := by simp [timeForestCount, c2a, c2b]
  unfold serializeTimeProfileState serializeTimeProfileStateQueue
  simp only [c2profile, h]
  decide

/-- C2 (amended): stack-order and queue-order traversal visit the same
nodes and produce Function and Location tables of equal length — each
visited node contributes exactly one entry to each — but the assigned
IDs and the table contents depend on the visitation order. -/
theorem C2_traversal_order_table_lengths (tp : CpuProfile)
    (hp : AllocationProfile) (i s ib sh : Int) :
    (serializeTimeProfileState tp i s).function.length =
      (serializeTimeProfileStateQueue tp i s).function.length ∧
    (serializeTimeProfileState tp i s).location.length =
      (serializeTimeProfileStateQueue tp i s).location.length ∧
    (serializeHeapProfileState hp ib sh).function.length =
      (serializeHeapProfileStateQueue hp ib sh).function.length ∧
    (serializeHeapProfileState hp ib sh).location.length =
      (serializeHeapProfileStateQueue hp ib sh).location.length := by
  have hbaseT := profileInit_base "wall" "microseconds" i s
    ((tp.endTime - tp.startTime) * 1000) "" ""
  have h0T := addSampleType_base (profileInit "wall" "microseconds" i s
    ((tp.endTime - tp.startTime) * 1000) "" "") "sample" "count"
  have h1T := addSampleType_base (addSampleType (profileInit "wall"
    "microseconds" i s ((tp.endTime - tp.startTime) * 1000) "" "")
    "sample" "count") "wall" "microseconds"
  have hmapT : (addSampleType (addSampleType (profileInit "wall" "microseconds"
      i s ((tp.endTime - tp.startTime) * 1000) "" "") "sample" "count")
      "wall" "microseconds").functionIdMap = [] := by
    rw [h1T.2.2, h0T.2.2, hbaseT.2.2]
  have hcompT : TimeEntry.node ∘ (fun c : TimeTree => TimeEntry.mk c []) = id := rfl
  have hcountT : timeForestCount
      ((tp.topDownRootChildren.map fun c => TimeEntry.mk c []).map
        TimeEntry.node) = timeForestCount tp.topDownRootChildren := by
    rw [List.map_map, hcompT, List.map_id]
  have hA := timeWalk_lengths i (timeForestCount tp.topDownRootChildren) _
    (tp.topDownRootChildren.map fun c => TimeEntry.mk c []) hcountT hmapT
  have hB := timeWalkQueue_lengths i (timeForestCount tp.topDownRootChildren) _
    (tp.topDownRootChildren.map fun c => TimeEntry.mk c []) hcountT hmapT
  have hbaseH := profileInit_base "space" "bytes" ib sh 0 "" ""
  have h0H := addSampleType_base (profileInit "space" "bytes" ib sh 0 "" "")
    "objects" "count"
  have h1H := addSampleType_base (addSampleType (profileInit "space" "bytes"
    ib sh 0 "" "") "objects" "count") "space" "bytes"
  have hmapH : (addSampleType (addSampleType (profileInit "space" "bytes"
      ib sh 0 "" "") "objects" "count") "space" "bytes").functionIdMap = [] := by
    rw [h1H.2.2, h0H.2.2, hbaseH.2.2]
  have hcompH : HeapEntry.node ∘ (fun c : HeapTree => HeapEntry.mk c []) = id := rfl
  have hcountH : heapForestCount
      ((hp.rootChildren.map fun c => HeapEntry.mk c []).map
        HeapEntry.node) = heapForestCount hp.rootChildren := by
    rw [List.map_map, hcompH, List.map_id]
  have hC := heapWalk_lengths (heapForestCount hp.rootChildren) _
    (hp.rootChildren.map fun c => HeapEntry.mk c []) hcountH hmapH
  have hD := heapWalkQueue_lengths (heapForestCount hp.rootChildren) _
    (hp.rootChildren.map fun c => HeapEntry.mk c []) hcountH hmapH
  unfold serializeTimeProfileState serializeTimeProfileStateQueue
    serializeHeapProfileState serializeHeapProfileStateQueue
  dsimp only
  omega
